import Mathlib

/-!
Formal model of the Sharkey/Misskey Post Archiver (`src/app.py`).

Shallow embedding conventions:
* pure Python functions become Lean functions over explicit data;
* the SQLite database becomes a `DB` value (lists of rows) threaded through
  the persistence functions;
* external effects (HTTP responses, media downloads, the `mimetypes` table,
  `hashlib.md5`, wall-clock time, Playwright rendering) are oracle parameters,
  so every function of the program stays a total, executable Lean function;
* Python strings are modelled by `String` / `List Char`; the regular
  expressions of `parse_input` are modelled by equivalent explicit character
  scans, and JSON objects by structures with `Option` fields mirroring
  exactly the `dict.get` defaults used by the code.
-/

namespace SharkeyArch

/-- Character class `[A-Za-z0-9]` of the note-id regexes in `parse_input`. -/
def isAlnumC (c : Char) : Bool := c.isAlpha || c.isDigit

/-- Character class `[A-Za-z0-9_.-]` of the username/host regexes in `parse_input`. -/
def wordC (c : Char) : Bool := isAlnumC c || c = '_' || c = '.' || c = '-'

/-- Python `str.strip()` (whitespace at both ends) on a character list. -/
def trimL (l : List Char) : List Char :=
  ((l.dropWhile Char.isWhitespace).reverse.dropWhile Char.isWhitespace).reverse

/-- Python `path.rstrip("/")`: remove every trailing `/`. -/
def rstripSlashL (l : List Char) : List Char :=
  (l.reverse.dropWhile (fun c => c = '/')).reverse

/-- Python `instance.rstrip('/')` as used when building URLs
(`api_post`, `store_note`). -/
def rstripSlashes (s : String) : String := ⟨rstripSlashL s.data⟩

/-- `l` ends with `suf`; models the `$` anchor of `re.search`. -/
def endsWithL (suf l : List Char) : Bool :=
  decide (l.reverse.take suf.length = suf.reverse)

/-- The maximal `[A-Za-z0-9]` suffix of a path. A match of
`([A-Za-z0-9]+)$` always captures exactly this suffix, because the character
preceding the captured group must fail the class (it is `/`). -/
def alnumSuffixL (l : List Char) : List Char := (l.reverse.takeWhile isAlnumC).reverse

/-- The path with its maximal `[A-Za-z0-9]` suffix removed. -/
def beforeAlnumSuffixL (l : List Char) : List Char := (l.reverse.dropWhile isAlnumC).reverse

/-- Model of `re.search(r"/notes/([A-Za-z0-9]+)$", path)`: the id is the
maximal alphanumeric suffix, and the text before it must end with
`/notes/`.  Note this is a suffix search (anchored only at `$`), not a
full-path match. -/
def noteMatchL (p : List Char) : Option (List Char) :=
  let i := alnumSuffixL p
  if i.isEmpty then none
  else if endsWithL "/notes/".data (beforeAlnumSuffixL p) then some i
  else none

/-- Model of `re.search(r"/(?:posts|statuses)/([A-Za-z0-9]+)$", path)`. -/
def postsStatusesMatchL (p : List Char) : Option (List Char) :=
  let i := alnumSuffixL p
  if i.isEmpty then none
  else if endsWithL "/posts/".data (beforeAlnumSuffixL p) ||
          endsWithL "/statuses/".data (beforeAlnumSuffixL p) then some i
  else none

/-- Model of `re.match(r"^/@([A-Za-z0-9_.-]+)$", path)` — fully anchored. -/
def profileMatchL (p : List Char) : Option (List Char) :=
  match p with
  | a :: b :: rest =>
    if a = '/' ∧ b = '@' ∧ rest ≠ [] ∧ rest.all wordC then some rest else none
  | _ => none

/-- Model of the host part `[A-Za-z0-9_.-]+\.[A-Za-z]{2,}` of the handle
regex (anchored at the end): the maximal trailing letter run must have
length at least 2, be preceded by a dot, and before the dot there must be a
nonempty run of class characters. -/
def hostOkL (h : List Char) : Bool :=
  let r := h.reverse
  let tld := r.takeWhile Char.isAlpha
  match r.dropWhile Char.isAlpha with
  | d :: restA => d = '.' ∧ 2 ≤ tld.length ∧ restA ≠ [] ∧ restA.all wordC
  | [] => false

/-- Model of `re.match(r"^@?([A-Za-z0-9_.-]+)@([A-Za-z0-9_.-]+\.[A-Za-z]{2,})$", raw)`.
Since `@` is not in the character class, the username group is exactly the
`@`-free prefix (after an optional leading `@`) and the host is the rest. -/
def handleMatchL (raw : List Char) : Option (List Char × List Char) :=
  let s := match raw with
    | a :: r => if a = '@' then r else raw
    | [] => raw
  let u := s.takeWhile (fun c => c ≠ '@')
  match s.dropWhile (fun c => c ≠ '@') with
  | _ :: h => if u ≠ [] ∧ u.all wordC ∧ hostOkL h then some (u, h) else none
  | [] => none

/-- Model of `re.match(r"^[A-Za-z0-9_.-]+$", raw)` (bare username). -/
def bareMatchL (raw : List Char) : Bool := !raw.isEmpty && raw.all wordC

/-- Split a character list at the first occurrence of `://`, returning the
text before it and the text after it. -/
def schemeSplitL : List Char → Option (List Char × List Char)
  | [] => none
  | c :: rest =>
    if c = ':' ∧ rest.take 2 = ['/', '/'] then some ([], rest.drop 2)
    else (schemeSplitL rest).map (fun ab => (c :: ab.1, ab.2))

/-- The `scheme`/`netloc`/`path` triple of `urllib.parse.urlparse`. -/
structure UrlParts where
  scheme : String
  netloc : String
  path : String
deriving DecidableEq

/-- Model of `urllib.parse.urlparse`, restricted to the shapes this program
consumes: `scheme://netloc/path` (query and fragment do not occur in its
inputs).  The scheme is lowercased, as `urlparse` does. -/
def urlparseM (s : String) : UrlParts :=
  match schemeSplitL s.data with
  | none => ⟨"", "", s⟩
  | some (sch, rest) =>
    let netloc := rest.takeWhile (fun c => c ≠ '/')
    let path := rest.drop netloc.length
    ⟨⟨sch.map Char.toLower⟩, ⟨netloc⟩, ⟨path⟩⟩

/-- `urllib.parse.urlparse(instance).netloc`, used for post identity keys. -/
def netlocOf (inst : String) : String := (urlparseM inst).netloc

/-- Result of `parse_input`: `("note", instance, note_id)` or
`("user", instance, username)` (instance possibly absent). -/
inductive Parsed where
  | note (inst : String) (noteId : String)
  | user (inst : Option String) (username : String)
deriving DecidableEq

/-- The two `ValueError`s raised by `parse_input`. -/
inductive ParseErr where
  | unrecognizedLocation (raw : String)
  | unrecognizedInput (raw : String)
deriving DecidableEq

/-- Model of `parse_input` (src/app.py lines 82-128). -/
def parseInput (raw : String) : Except ParseErr Parsed :=
  let raw : String := ⟨trimL raw.data⟩
  let u := urlparseM raw
  if (u.scheme = "http" ∨ u.scheme = "https") ∧ u.netloc ≠ "" then
    let instS := u.scheme ++ "://" ++ u.netloc
    let path := rstripSlashL u.path.data
    match noteMatchL path with
    | some i => .ok (.note instS ⟨i⟩)
    | none =>
      match postsStatusesMatchL path with
      | some i => .ok (.note instS ⟨i⟩)
      | none =>
        match profileMatchL path with
        | some un => .ok (.user (some instS) ⟨un⟩)
        | none => .error (.unrecognizedLocation raw)
  else
    match handleMatchL raw.data with
    | some uh => .ok (.user (some ("https://" ++ (⟨uh.2⟩ : String))) ⟨uh.1⟩)
    | none =>
      if bareMatchL raw.data then .ok (.user none raw)
      else .error (.unrecognizedInput raw)

lemma takeWhile_append_of_all {α} (p : α → Bool) {l₁ : List α} (l₂ : List α)
    (h : l₁.all p = true) : (l₁ ++ l₂).takeWhile p = l₁ ++ l₂.takeWhile p := by
  induction l₁ with
  | nil => simp
  | cons a t ih => simp_all [List.takeWhile_cons]

lemma dropWhile_append_of_all {α} (p : α → Bool) {l₁ : List α} (l₂ : List α)
    (h : l₁.all p = true) : (l₁ ++ l₂).dropWhile p = l₂.dropWhile p := by
  induction l₁ with
  | nil => simp
  | cons a t ih => simp_all [List.dropWhile_cons]

lemma endsWithL_append (suf pre : List Char) : endsWithL suf (pre ++ suf) = true := by
  have h : (pre ++ suf).reverse.take suf.length = suf.reverse := by
    rw [List.reverse_append, ← List.length_reverse suf]
    exact List.take_left ..
  simp [endsWithL, h]

lemma alnumSuffixL_of_slash_boundary (pre i : List Char) (sep : List Char)
    (hsep : sep.reverse.head? = some '/') (h2 : i.all isAlnumC = true) :
    alnumSuffixL ((pre ++ sep) ++ i) = i := by
  have h0 : isAlnumC '/' = false := by decide
  cases hrev : sep.reverse with
  | nil => simp [hrev] at hsep
  | cons c rest =>
    rw [hrev] at hsep
    simp only [List.head?_cons, Option.some.injEq] at hsep
    subst hsep
    have hps : (pre ++ sep).reverse = '/' :: (rest ++ pre.reverse) := by
      rw [List.reverse_append, hrev, List.cons_append]
    unfold alnumSuffixL
    rw [List.reverse_append, takeWhile_append_of_all _ _ (by simpa using h2), hps,
        List.takeWhile_cons, h0]
    simp

lemma beforeAlnumSuffixL_of_slash_boundary (pre i : List Char) (sep : List Char)
    (hsep : sep.reverse.head? = some '/') (h2 : i.all isAlnumC = true) :
    beforeAlnumSuffixL ((pre ++ sep) ++ i) = pre ++ sep := by
  have h0 : isAlnumC '/' = false := by decide
  cases hrev : sep.reverse with
  | nil => simp [hrev] at hsep
  | cons c rest =>
    rw [hrev] at hsep
    simp only [List.head?_cons, Option.some.injEq] at hsep
    subst hsep
    have hps : (pre ++ sep).reverse = '/' :: (rest ++ pre.reverse) := by
      rw [List.reverse_append, hrev, List.cons_append]
    unfold beforeAlnumSuffixL
    rw [List.reverse_append, dropWhile_append_of_all _ _ (by simpa using h2), hps,
        List.dropWhile_cons, h0]
    simp only [Bool.false_eq_true, if_false]
    rw [← hps, List.reverse_reverse]

/-- A `/notes/<id>` tail is recognised after ANY path prefix: the regex is a
suffix search. -/
lemma noteMatchL_suffix (pre i : List Char) (h1 : i ≠ []) (h2 : i.all isAlnumC = true) :
    noteMatchL (pre ++ "/notes/".data ++ i) = some i := by
  unfold noteMatchL
  rw [alnumSuffixL_of_slash_boundary pre i "/notes/".data (by decide) h2,
      beforeAlnumSuffixL_of_slash_boundary pre i "/notes/".data (by decide) h2]
  simp [h1, endsWithL_append]

/-- A `/statuses/<id>` tail is likewise recognised after any path prefix. -/
lemma statusesMatchL_suffix (pre i : List Char) (h1 : i ≠ []) (h2 : i.all isAlnumC = true) :
    postsStatusesMatchL (pre ++ "/statuses/".data ++ i) = some i := by
  unfold postsStatusesMatchL
  rw [alnumSuffixL_of_slash_boundary pre i "/statuses/".data (by decide) h2,
      beforeAlnumSuffixL_of_slash_boundary pre i "/statuses/".data (by decide) h2]
  simp [h1, endsWithL_append]

/-- The profile regex `^/@([A-Za-z0-9_.-]+)$` is fully anchored: a match
forces the whole path to be `/@<username>`. -/
lemma profileMatchL_anchored (p un : List Char) (h : profileMatchL p = some un) :
    p = '/' :: '@' :: un := by
  match p with
  | [] => simp [profileMatchL] at h
  | [a] => simp [profileMatchL] at h
  | a :: b :: rest =>
    simp only [profileMatchL] at h
    split at h
    · rename_i hc
      obtain ⟨ha, hb, -, -⟩ := hc
      cases h
      rw [ha, hb]
    · cases h

/-- C5 counterexample: the claim says an absolute URL is recognised as a
Note target ONLY when its entire stripped path is `/notes/<id>` (or
`/posts/<id>`, `/statuses/<id>`).  But `re.search(r"/notes/([A-Za-z0-9]+)$")`
is anchored only at the end of the path, so the URL
`https://example.com/x/notes/abc` — whose full path `/x/notes/abc` is none
of those forms — is nonetheless recognised as a Note target instead of
failing with the unrecognized-location error. -/
theorem parse_input_anchored_counterexample :
    parseInput "https://example.com/x/notes/abc" = .ok (.note "https://example.com" "abc") := by
  rfl

/-- C5 amended: `parse_input` strips trailing slashes from the URL path
before matching.  Note matching is a suffix search anchored only at the end
of the path: any path whose stripped form ends with `/notes/<id>` (or
`/posts/<id>` or `/statuses/<id>`) is recognised as a Note target,
regardless of what precedes it.  User matching IS fully anchored: a URL is
a User target only when the entire stripped path is `/@<username>`.  Any
other absolute URL fails with the unrecognized-location error. -/
theorem parse_input_matching_amended :
    (∀ pre i, i ≠ [] → i.all isAlnumC = true →
      noteMatchL (pre ++ "/notes/".data ++ i) = some i)
    ∧ (∀ pre i, i ≠ [] → i.all isAlnumC = true →
      postsStatusesMatchL (pre ++ "/statuses/".data ++ i) = some i)
    ∧ (∀ p un, profileMatchL p = some un → p = '/' :: '@' :: un)
    ∧ parseInput "https://h.tld/notes/abc///" = .ok (.note "https://h.tld" "abc")
    ∧ parseInput "https://h.tld/@alice" = .ok (.user (some "https://h.tld") "alice")
    ∧ parseInput "https://h.tld/@alice/bio" = .error (.unrecognizedLocation "https://h.tld/@alice/bio")
    ∧ parseInput "https://h.tld/about" = .error (.unrecognizedLocation "https://h.tld/about") := by
  exact ⟨noteMatchL_suffix, statusesMatchL_suffix, profileMatchL_anchored, rfl, rfl, rfl, rfl⟩

/-- Witness for `parse_input_matching_amended` at concrete inputs. -/
theorem parse_input_matching_amended_witness :
    noteMatchL ("/pfx".data ++ "/notes/".data ++ "id9".data) = some "id9".data
    ∧ postsStatusesMatchL ("/@u".data ++ "/statuses/".data ++ "77a".data) = some "77a".data
    ∧ "/@alice".data = '/' :: '@' :: "alice".data := by
  refine ⟨parse_input_matching_amended.1 "/pfx".data "id9".data (by decide) (by decide),
          parse_input_matching_amended.2.1 "/@u".data "77a".data (by decide) (by decide),
          parse_input_matching_amended.2.2.1 "/@alice".data "alice".data (by decide)⟩

/-- Python string slicing `s[:n]`: the first `n` characters. -/
def takeStr (s : String) (n : Nat) : String := ⟨s.data.take n⟩

/-- Outcome of one HTTP attempt inside `api_post`: a 2xx body, an
`urllib.error.HTTPError` with status code and body, or any other exception
(transport error, timeout, bad JSON). -/
inductive Resp where
  | ok (body : String)
  | httpErr (code : Nat) (body : String)
  | transport (msg : String)
deriving DecidableEq

/-- The errors `api_post` can raise: the immediate
`ValueError(f"API error {e.code} from {instance}: {body[:300]}")`, a
re-raised transport-level exception, and the terminal
`ValueError(f"API request failed after {retries} attempts: {last_err}")`. -/
inductive ApiErr where
  | apiError (code : Nat) (inst : String) (bodyFrag : String)
  | transportErr (msg : String)
  | failedAfter (attempts : Nat) (lastErr : Option String)
deriving DecidableEq

instance : DecidableEq (Except ApiErr String) := fun a b =>
  match a, b with
  | .ok x, .ok y => decidable_of_iff (x = y) (by simp)
  | .error x, .error y => decidable_of_iff (x = y) (by simp)
  | .ok _, .error _ => isFalse (by simp)
  | .error _, .ok _ => isFalse (by simp)

/-- Observable outcome of `api_post`: how many attempts ran, the sleeps (in
seconds, in order) performed before retries, and the final result. -/
structure CallResult where
  attempts : Nat
  sleeps : List Nat
  result : Except ApiErr String
deriving DecidableEq

/-- The loop `for attempt in range(retries)` of `api_post` (src/app.py
lines 133-167), modelled as recursion over the list of remaining attempt
indices.  `responses` is the network oracle giving each attempt's outcome.
The nil case is the fall-through after the loop:
`raise ValueError(f"API request failed after {retries} attempts: {last_err}")`. -/
def apiPostLoop (responses : Nat → Resp) (inst : String) (retries : Nat) :
    List Nat → Option String → List Nat → CallResult
  | [], lastErr, sleeps => ⟨retries, sleeps, .error (.failedAfter retries lastErr)⟩
  | attempt :: restA, lastErr, sleeps =>
    -- time.sleep(base_delay * attempt) with base_delay = 2.0: 2s, 4s back-off
    let sleeps := if 0 < attempt then sleeps ++ [2 * attempt] else sleeps
    match responses attempt with
    | .ok b => ⟨attempt + 1, sleeps, .ok b⟩
    | .httpErr code body =>
      -- 500 = server overloaded — retry while attempts remain
      if code = 500 ∧ attempt < retries - 1 then
        apiPostLoop responses inst retries restA
          (some ("API 500 (attempt " ++ toString (attempt + 1) ++ "/" ++
            toString retries ++ "), retrying…")) sleeps
      else ⟨attempt + 1, sleeps, .error (.apiError code inst (takeStr body 300))⟩
    | .transport msg =>
      if attempt < retries - 1 then
        apiPostLoop responses inst retries restA (some msg) sleeps
      else ⟨attempt + 1, sleeps, .error (.transportErr msg)⟩

/-- Model of `api_post(instance, endpoint, payload, retries=3)`.  The url
`instance.rstrip('/') + "/api/" + endpoint` and the JSON payload do not
affect control flow and are absorbed into the `responses` oracle. -/
def apiPost (responses : Nat → Resp) (inst : String) (retries : Nat := 3) : CallResult :=
  apiPostLoop responses inst retries (List.range retries) none []

/-- Is the result the terminal "request failed after N attempts" wrapper? -/
def isFailedAfter : Except ApiErr String → Bool
  | .error (.failedAfter _ _) => true
  | _ => false

/-- With 3 retries, every response trace leads to at most 3 attempts and
never to the terminal "failed after N attempts" wrapper (the loop always
returns or raises before falling through). -/
lemma apiPost3_bounds (rs : Nat → Resp) (inst : String) :
    (apiPost rs inst 3).attempts ≤ 3
    ∧ isFailedAfter (apiPost rs inst 3).result = false := by
  simp only [apiPost]
  rw [show List.range 3 = [0, 1, 2] from rfl]
  rcases h0 : rs 0 with b | ⟨c, b⟩ | m
  · simp [apiPostLoop, h0, isFailedAfter]
  · by_cases hc : c = 500
    · subst hc
      rcases h1 : rs 1 with b1 | ⟨c1, b1⟩ | m1
      · simp [apiPostLoop, h0, h1, isFailedAfter]
      · by_cases hc1 : c1 = 500
        · subst hc1
          rcases h2 : rs 2 with b2 | ⟨c2, b2⟩ | m2 <;>
            simp [apiPostLoop, h0, h1, h2, isFailedAfter]
        · simp [apiPostLoop, h0, h1, hc1, isFailedAfter]
      · rcases h2 : rs 2 with b2 | ⟨c2, b2⟩ | m2 <;>
          simp [apiPostLoop, h0, h1, h2, isFailedAfter]
    · simp [apiPostLoop, h0, hc, isFailedAfter]
  · rcases h1 : rs 1 with b1 | ⟨c1, b1⟩ | m1
    · simp [apiPostLoop, h0, h1, isFailedAfter]
    · by_cases hc1 : c1 = 500
      · subst hc1
        rcases h2 : rs 2 with b2 | ⟨c2, b2⟩ | m2 <;>
          simp [apiPostLoop, h0, h1, h2, isFailedAfter]
      · simp [apiPostLoop, h0, h1, hc1, isFailedAfter]
    · rcases h2 : rs 2 with b2 | ⟨c2, b2⟩ | m2 <;>
        simp [apiPostLoop, h0, h1, h2, isFailedAfter]

/-- C2: `api_post` with 3 retries makes at most 3 attempts; a 500 retries
while attempts remain, sleeping 2s before the 2nd attempt and 4s before the
3rd; any other non-2xx status fails immediately (1 attempt, no sleeps) with
the status code and the first 300 characters of the response body embedded
in the error.  In particular 500,500,200 succeeds with exactly the two
retry delays [2, 4], and a 403 fails immediately with no retry. -/
theorem api_post_retry_policy (rs : Nat → Resp) (inst : String) :
    (apiPost rs inst 3).attempts ≤ 3
    ∧ (∀ b₀ b₁ v, rs 0 = .httpErr 500 b₀ → rs 1 = .httpErr 500 b₁ → rs 2 = .ok v →
        apiPost rs inst 3 = ⟨3, [2, 4], .ok v⟩)
    ∧ (∀ code body, rs 0 = .httpErr code body → code ≠ 500 →
        apiPost rs inst 3 = ⟨1, [], .error (.apiError code inst (takeStr body 300))⟩) := by
  refine ⟨(apiPost3_bounds rs inst).1, ?_, ?_⟩
  · intro b₀ b₁ v h0 h1 h2
    simp only [apiPost]
    rw [show List.range 3 = [0, 1, 2] from rfl]
    simp [apiPostLoop, h0, h1, h2]
  · intro code body h0 hne
    simp only [apiPost]
    rw [show List.range 3 = [0, 1, 2] from rfl]
    simp [apiPostLoop, h0, hne]

/-- Witness for `api_post_retry_policy`: the 500,500,200 scenario and the
immediate-403 scenario at concrete response traces. -/
theorem api_post_retry_policy_witness :
    apiPost (fun n => if n = 0 then .httpErr 500 "e0" else if n = 1 then .httpErr 500 "e1" else .ok "v")
      "https://h" 3 = ⟨3, [2, 4], .ok "v"⟩
    ∧ apiPost (fun _ => .httpErr 403 "forbidden") "https://h" 3
      = ⟨1, [], .error (.apiError 403 "https://h" "forbidden")⟩ := by
  constructor
  · exact (api_post_retry_policy _ "https://h").2.1 "e0" "e1" "v" rfl rfl rfl
  · have h := (api_post_retry_policy (fun _ => .httpErr 403 "forbidden") "https://h").2.2
      403 "forbidden" rfl (by decide)
    simpa [takeStr] using h

/-- C4 counterexample: the claim says that when all 3 attempts observe an
HTTP 500, the call fails with the last error wrapped in a terminal
"request failed after N attempts" error.  In the code, a 500 on the LAST
attempt fails the `attempt < retries - 1` guard and immediately raises
`ValueError(f"API error 500 from {instance}: {body[:300]}")`; the wrapper
line is never reached.  Concretely, with every attempt returning
HTTP 500 "boom", the result is the immediate API-error, not the wrapper. -/
theorem api_post_exhaustion_counterexample :
    apiPost (fun _ => .httpErr 500 "boom") "https://x" 3
      = ⟨3, [2, 4], .error (.apiError 500 "https://x" "boom")⟩
    ∧ isFailedAfter (apiPost (fun _ => .httpErr 500 "boom") "https://x" 3).result = false := by
  exact ⟨by decide, by decide⟩

/-- C4 amended: when all 3 attempts fail, the call fails with the LAST
attempt's error surfaced directly — the immediate
`"API error 500 ..."` error when the last attempt observes a 500, or the
re-raised raw transport error when it is a transport failure.  The
terminal "request failed after N attempts" wrapper is dead code for
`retries = 3`: no response trace can produce it. -/
theorem api_post_exhaustion_amended (rs : Nat → Resp) (inst : String) :
    (∀ b₀ b₁ b₂, rs 0 = .httpErr 500 b₀ → rs 1 = .httpErr 500 b₁ → rs 2 = .httpErr 500 b₂ →
      apiPost rs inst 3 = ⟨3, [2, 4], .error (.apiError 500 inst (takeStr b₂ 300))⟩)
    ∧ (∀ m₀ m₁ m₂, rs 0 = .transport m₀ → rs 1 = .transport m₁ → rs 2 = .transport m₂ →
      apiPost rs inst 3 = ⟨3, [2, 4], .error (.transportErr m₂)⟩)
    ∧ isFailedAfter (apiPost rs inst 3).result = false := by
  refine ⟨?_, ?_, (apiPost3_bounds rs inst).2⟩
  · intro b₀ b₁ b₂ h0 h1 h2
    simp only [apiPost]
    rw [show List.range 3 = [0, 1, 2] from rfl]
    simp [apiPostLoop, h0, h1, h2]
  · intro m₀ m₁ m₂ h0 h1 h2
    simp only [apiPost]
    rw [show List.range 3 = [0, 1, 2] from rfl]
    simp [apiPostLoop, h0, h1, h2]

/-- Witness for `api_post_exhaustion_amended` at a concrete response trace. -/
theorem api_post_exhaustion_amended_witness :
    apiPost (fun n => .transport ("t" ++ toString n)) "https://x" 3
      = ⟨3, [2, 4], .error (.transportErr "t2")⟩ := by
  exact (api_post_exhaustion_amended _ "https://x").2.1 "t0" "t1" "t2" rfl rfl rfl

/-- Python `x or default` for an optional string field: the default is used
when the field is absent (`None`) or empty (falsy). -/
def orElseStr (o : Option String) (d : String) : String :=
  match o with
  | some s => if s = "" then d else s
  | none => d

/-- The `user` object consumed from a note: `user.get("name")`,
`user.get("username", "")`, `user.get("host")`, `user.get("avatarUrl", "")`.
Fields read with a `""` default are plain strings (absence is `""`). -/
structure NoteUser where
  name : Option String
  username : String
  host : Option String
  avatarUrl : String
deriving DecidableEq

/-- The value found under a note's `reactions` key: either a JSON object
(emoji → tally) or a value of any other type (`isinstance(reactions, dict)`
is how the code discriminates). -/
inductive Reactions where
  | rdict (entries : List (String × Int))
  | rnondict
deriving DecidableEq

/-- One entry of a note's `files` array, with exactly the keys the code
reads (`id`, `url`, `name`, `type`, `properties.width/height`,
`isSensitive`, `comment`); `ftype` stands for the `type` key. -/
structure NoteFile where
  id : Option String
  url : String
  fname : Option String
  ftype : String
  width : Option Int
  height : Option Int
  isSensitive : Bool
  comment : String
deriving DecidableEq

/-- A note object as consumed by `store_note`: `Option` fields mirror keys
read via `.get` with a `None`-like or falsy-sensitive default; plain fields
mirror keys read with a constant default baked in (`""`, `0`, `[]`). -/
structure Note where
  id : Option String
  user : Option NoteUser
  text : Option String
  cw : Option String
  createdAt : Option String
  repliesCount : Int
  renoteCount : Int
  reactions : Option Reactions
  visibility : Option String
  files : Option (List NoteFile)
deriving DecidableEq

/-- A row of the `posts` table; `inst` stands for the `instance` column and
`raw` for the `raw_json` column (the note stored verbatim). -/
structure PostRow where
  id : String
  inst : String
  note_id : String
  url : String
  archived_at : String
  user_name : String
  user_handle : String
  user_avatar : String
  content : String
  cw : Option String
  created_at : String
  reply_count : Int
  renote_count : Int
  reaction_count : Int
  visibility : String
  raw : Note
  screenshot_path : Option String
deriving DecidableEq

/-- A row of the `media` table. -/
structure MediaRow where
  id : String
  post_id : String
  filename : String
  url : String
  mime_type : String
  local_path : Option String
  width : Option Int
  height : Option Int
  is_sensitive : Nat
  alt_text : String
deriving DecidableEq

/-- The SQLite database: the `posts` and `media` tables as row lists
(insertion order). -/
structure DB where
  posts : List PostRow
  media : List MediaRow
deriving DecidableEq

/-- `MEDIA_DIR` ("archive_data/media"). -/
def mediaDirS : String := "archive_data/media"

/-- `re.sub(r"[^A-Za-z0-9_-]", "_", post_id)`: the sanitized media folder. -/
def sanitizeId (s : String) : String :=
  ⟨s.data.map (fun c => if isAlnumC c || c = '_' || c = '-' then c else '_')⟩

/-- The post identity key `urlparse(instance).netloc + "/" + note_id`. -/
def postKey (inst nid : String) : String := netlocOf inst ++ "/" ++ nid

/-- Model of `download_media(url, folder, file_id)` (src/app.py lines
195-208).  `net` is the network oracle: `none` models any exception during
the download (connection error, timeout) — swallowed into a `None` local
path — and `some hdr` a successful response carrying the optional
`Content-Type` header.  `ge` is the `mimetypes.guess_extension` table. -/
def downloadMedia (net : String → Option (Option String)) (ge : String → Option String)
    (url folder file_id : String) : Option String :=
  match net url with
  | none => none
  | some hdr =>
    let ct := ⟨(hdr.getD "application/octet-stream").data.takeWhile (fun c => c ≠ ';')⟩
    let ext := (ge ct).getD ".bin"
    let ext := if ext = ".jpe" ∨ ext = ".jpeg" then ".jpg" else ext
    some (mediaDirS ++ "/" ++ folder ++ "/" ++ file_id ++ ext)

/-- The fresh posts row built by `store_note`'s INSERT (src/app.py lines
283-313).  `nowIso` is the wall-clock oracle (`datetime.utcnow()`). -/
def mkPostRow (nowIso inst nid : String) (note : Note) : PostRow :=
  let user := note.user.getD ⟨none, "", none, ""⟩
  -- user_name = user.get("name") or user.get("username", "")
  let user_name := orElseStr user.name user.username
  -- handle_parts = [username]; append host if truthy; "@" + "@".join(parts)
  let user_handle := "@" ++ user.username ++
    (match user.host with
     | some h => if h = "" then "" else "@" ++ h
     | none => "")
  -- reaction_count = sum(reactions.values()) if isinstance(reactions, dict) else 0
  let reaction_count : Int :=
    match note.reactions with
    | some (.rdict entries) => (entries.map Prod.snd).sum
    | some .rnondict => 0
    | none => 0
  { id := postKey inst nid
    inst := inst
    note_id := nid
    url := rstripSlashes inst ++ "/notes/" ++ nid
    archived_at := nowIso
    user_name := user_name
    user_handle := user_handle
    user_avatar := user.avatarUrl
    content := orElseStr note.text ""
    cw := note.cw
    created_at := note.createdAt.getD ""
    reply_count := note.repliesCount
    renote_count := note.renoteCount
    reaction_count := reaction_count
    visibility := note.visibility.getD "public"
    raw := note
    screenshot_path := none }

/-- The `for f in note.get("files", [])` loop of `store_note`: download each
attachment and `INSERT OR IGNORE` its media row.  `dl` abstracts
`download_media` and `md5hex` is `hashlib.md5(...).hexdigest()`. -/
def insertMediaRows (dl : String → String → String → Option String)
    (md5hex : String → String) (post_id folder : String) :
    List NoteFile → DB → DB
  | [], db => db
  | f :: rest, db =>
    -- fid = f.get("id") or md5(f.get("url","")).hexdigest()[:10]
    let fid := orElseStr f.id (takeStr (md5hex f.url) 10)
    -- lpath = download_media(furl, folder, fid) if furl else None
    let lpath := if f.url = "" then none else dl f.url folder fid
    let mid := post_id ++ "/" ++ fid
    let db' :=
      if db.media.any (fun m => m.id = mid) then db
      else { db with media := db.media ++
        [{ id := mid
           post_id := post_id
           filename := f.fname.getD fid
           url := f.url
           mime_type := f.ftype
           local_path := lpath
           width := f.width
           height := f.height
           is_sensitive := if f.isSensitive then 1 else 0
           alt_text := f.comment }] }
    insertMediaRows dl md5hex post_id folder rest db'

/-- The screenshot tail of `store_note` (src/app.py lines 335-342):
`generate_html_mirror_for_screenshot` + `take_screenshot` + the
`UPDATE posts SET screenshot_path` are abstracted by the oracle `snap`,
which maps the post id to the optional screenshot path. -/
def applySnapDB (snap : String → Option String) (post_id : String) (db : DB) : DB :=
  match snap post_id with
  | some p =>
    let upd := fun (r : PostRow) =>
      if r.id = post_id then { r with screenshot_path := some p } else r
    { db with posts := db.posts.map upd }
  | none => db

/-- Model of `store_note(instance, note)` (src/app.py lines 272-344).
Returns the post id (archived) or `none` (missing/falsy note id, or the
row already exists) together with the updated database. -/
def storeNote (dl : String → String → String → Option String)
    (md5hex : String → String) (snap : String → Option String) (nowIso : String)
    (db : DB) (inst : String) (note : Note) : Option String × DB :=
  match note.id with
  | none => (none, db)
  | some nid =>
    if nid = "" then (none, db)
    else
      let post_id := postKey inst nid
      if db.posts.any (fun p => p.id = post_id) then (none, db)  -- already archived
      else
        let db1 : DB := { db with posts := db.posts ++ [mkPostRow nowIso inst nid note] }
        let db2 := insertMediaRows dl md5hex post_id (sanitizeId post_id)
          (note.files.getD []) db1
        (some post_id, applySnapDB snap post_id db2)

/-- The dict returned by `archive_single`. -/
structure SingleResult where
  status : String
  post_id : String
  url : Option String
deriving DecidableEq

/-- Model of `archive_single(instance, note_id)` (src/app.py lines
349-357); `note` is the object returned by `fetch_note`. -/
def archiveSingle (dl : String → String → String → Option String)
    (md5hex : String → String) (snap : String → Option String) (nowIso : String)
    (db : DB) (inst : String) (note_id : String) (note : Note) : SingleResult × DB :=
  let r := storeNote dl md5hex snap nowIso db inst note
  let post_id := netlocOf inst ++ "/" ++ note_id
  match r.1 with
  | none => (⟨"already_archived", post_id, none⟩, r.2)
  | some pid => (⟨"archived", pid, some (rstripSlashes inst ++ "/notes/" ++ note_id)⟩, r.2)

/-- First posts row with the given id (how `SELECT ... WHERE id=?` reads). -/
def getPost (db : DB) (k : String) : Option PostRow := db.posts.find? (fun p => p.id = k)

/-- First media row with the given id. -/
def getMedia (db : DB) (k : String) : Option MediaRow := db.media.find? (fun m => m.id = k)

lemma find?_append_right {α} (p : α → Bool) :
    ∀ (l₁ l₂ : List α), (∀ x ∈ l₁, p x = false) → (l₁ ++ l₂).find? p = l₂.find? p := by
  intro l₁ l₂ h
  induction l₁ with
  | nil => rfl
  | cons a t ih =>
    have ha := h a (List.mem_cons_self ..)
    simp only [List.cons_append, List.find?_cons, ha]
    exact ih (fun x hx => h x (List.mem_cons_of_mem _ hx))

lemma nodup_append_singleton {α} (l : List α) (a : α) (h : l.Nodup) (ha : a ∉ l) :
    (l ++ [a]).Nodup := by
  simp [List.nodup_append, h, ha]

lemma insertMediaRows_posts (dl : String → String → String → Option String)
    (md5h : String → String) (pid folder : String) :
    ∀ (fs : List NoteFile) (db : DB),
      (insertMediaRows dl md5h pid folder fs db).posts = db.posts := by
  intro fs
  induction fs with
  | nil => intro db; rfl
  | cons f rest ih =>
    intro db
    rw [insertMediaRows, ih]
    split <;> rfl

lemma insertMediaRows_nodup (dl : String → String → String → Option String)
    (md5h : String → String) (pid folder : String) :
    ∀ (fs : List NoteFile) (db : DB),
      (db.media.map MediaRow.id).Nodup →
      ((insertMediaRows dl md5h pid folder fs db).media.map MediaRow.id).Nodup := by
  intro fs
  induction fs with
  | nil => intro db h; exact h
  | cons f rest ih =>
    intro db h
    rw [insertMediaRows]
    split
    · exact ih db h
    · rename_i hany
      apply ih
      simp only [List.map_append, List.map_cons, List.map_nil]
      apply nodup_append_singleton _ _ h
      intro hmem
      rw [Bool.not_eq_true, List.any_eq_false] at hany
      obtain ⟨m, hm, hid⟩ := List.mem_map.mp hmem
      exact hany m hm (by simp [hid])

lemma applySnapDB_media (snap : String → Option String) (k : String) (db : DB) :
    (applySnapDB snap k db).media = db.media := by
  unfold applySnapDB
  cases snap k <;> rfl

lemma find?_map_pred {α} (g : α → α) (q : α → Bool) (hq : ∀ x, q (g x) = q x) :
    ∀ l : List α, (l.map g).find? q = (l.find? q).map g := by
  intro l
  induction l with
  | nil => rfl
  | cons a t ih =>
    rw [List.map_cons, List.find?_cons, List.find?_cons, hq a]
    cases hqa : q a with
    | true => simp
    | false => simpa using ih

lemma find?_map_upd {β} (F : PostRow → β)
    (hF : ∀ r p, F { r with screenshot_path := some p } = F r) (k key pth : String) :
    ∀ (l : List PostRow),
      ((l.map (fun r => if r.id = k then { r with screenshot_path := some pth } else r)).find?
        (fun p => p.id = key)).map F
      = (l.find? (fun p => p.id = key)).map F := by
  intro l
  have hq : ∀ r : PostRow,
      (decide ((if r.id = k then { r with screenshot_path := some pth } else r).id = key))
        = decide (r.id = key) := by
    intro r
    split <;> rfl
  rw [find?_map_pred _ _ hq l]
  cases h : l.find? (fun p => p.id = key) with
  | none => rfl
  | some r =>
    by_cases hrk : r.id = k
    · rw [Option.map_some', Option.map_some', if_pos hrk, hF]
      rfl
    · rw [Option.map_some', Option.map_some', if_neg hrk]
      rfl

lemma getPost_applySnap_proj {β} (F : PostRow → β)
    (hF : ∀ r p, F { r with screenshot_path := some p } = F r)
    (snap : String → Option String) (k key : String) (db : DB) :
    ((getPost (applySnapDB snap k db) key).map F) = (getPost db key).map F := by
  unfold applySnapDB getPost
  cases snap k with
  | none => rfl
  | some p => exact find?_map_upd F hF k key p db.posts

lemma countP_map_upd (k key pth : String) :
    ∀ (l : List PostRow),
      (l.map (fun r => if r.id = k then { r with screenshot_path := some pth } else r)).countP
        (fun p => p.id = key)
      = l.countP (fun p => p.id = key) := by
  intro l
  induction l with
  | nil => rfl
  | cons a t ih =>
    simp only [List.map_cons, List.countP_cons, ih]
    by_cases hk : a.id = k <;> simp [hk]

lemma applySnapDB_countP (snap : String → Option String) (k key : String) (db : DB) :
    (applySnapDB snap k db).posts.countP (fun p => p.id = key)
      = db.posts.countP (fun p => p.id = key) := by
  unfold applySnapDB
  cases snap k with
  | none => rfl
  | some p => exact countP_map_upd k key p db.posts

/-- Unfolding of `store_note` on the fresh-insert path: with a present,
non-empty note id whose key is not yet in the posts table, the function
returns the key and the database extended by the new post row, the media
rows, and the optional screenshot update. -/
lemma storeNote_insert (dl : String → String → String → Option String)
    (md5h : String → String) (snap : String → Option String) (now : String)
    (db : DB) (inst : String) (note : Note) (nid : String)
    (hid : note.id = some nid) (hne : nid ≠ "")
    (habs : db.posts.any (fun p => p.id = postKey inst nid) = false) :
    storeNote dl md5h snap now db inst note
      = (some (postKey inst nid),
         applySnapDB snap (postKey inst nid)
           (insertMediaRows dl md5h (postKey inst nid) (sanitizeId (postKey inst nid))
             (note.files.getD [])
             { db with posts := db.posts ++ [mkPostRow now inst nid note] })) := by
  simp [storeNote, hid, hne, habs]

/-- On the fresh-insert path, reading back any screenshot-independent field
of the posts row with the new key gives the field of the freshly built row. -/
lemma getPost_storeNote_proj {β} (F : PostRow → β)
    (hF : ∀ r p, F { r with screenshot_path := some p } = F r)
    (dl : String → String → String → Option String)
    (md5h : String → String) (snap : String → Option String) (now : String)
    (db : DB) (inst : String) (note : Note) (nid : String)
    (hid : note.id = some nid) (hne : nid ≠ "")
    (habs : db.posts.any (fun p => p.id = postKey inst nid) = false) :
    ((getPost (storeNote dl md5h snap now db inst note).2 (postKey inst nid)).map F)
      = some (F (mkPostRow now inst nid note)) := by
  rw [storeNote_insert dl md5h snap now db inst note nid hid hne habs]
  rw [getPost_applySnap_proj F hF]
  unfold getPost
  rw [insertMediaRows_posts]
  have hfalse : ∀ x ∈ db.posts, (decide (x.id = postKey inst nid)) = false := by
    rw [List.any_eq_false] at habs
    intro x hx
    simpa using habs x hx
  rw [find?_append_right _ _ _ hfalse]
  simp [mkPostRow, List.find?_cons]

/-- C1: `store_note` is an idempotent no-op when the identity key already
exists.  If a posts row with key `host + "/" + note_id` is present, a call
returns `None` and leaves the database untouched; storing a fresh note and
then re-storing any note with the same id returns `None` the second time,
changes nothing, leaves exactly one posts row with that key, and never
duplicates media rows. -/
theorem store_note_idempotent
    (dl : String → String → String → Option String) (md5h : String → String)
    (snap : String → Option String) (now : String) (db : DB) (inst : String)
    (note note' : Note) (nid : String)
    (hid : note.id = some nid) (hne : nid ≠ "")
    (habs : db.posts.any (fun p => p.id = postKey inst nid) = false)
    (hmed : (db.media.map MediaRow.id).Nodup)
    (hid' : note'.id = some nid) :
    (∀ db' : DB, db'.posts.any (fun p => p.id = postKey inst nid) = true →
      storeNote dl md5h snap now db' inst note' = (none, db'))
    ∧ (storeNote dl md5h snap now db inst note).1 = some (postKey inst nid)
    ∧ storeNote dl md5h snap now (storeNote dl md5h snap now db inst note).2 inst note'
        = (none, (storeNote dl md5h snap now db inst note).2)
    ∧ (storeNote dl md5h snap now db inst note).2.posts.countP
        (fun p => p.id = postKey inst nid) = 1
    ∧ ((storeNote dl md5h snap now db inst note).2.media.map MediaRow.id).Nodup := by
  have hexist : ∀ db' : DB, db'.posts.any (fun p => p.id = postKey inst nid) = true →
      storeNote dl md5h snap now db' inst note' = (none, db') := by
    intro db' hany
    simp [storeNote, hid', hne, hany]
  have hins := storeNote_insert dl md5h snap now db inst note nid hid hne habs
  have hcount : (storeNote dl md5h snap now db inst note).2.posts.countP
      (fun p => p.id = postKey inst nid) = 1 := by
    rw [hins]
    dsimp only
    rw [applySnapDB_countP]
    have hposts := insertMediaRows_posts dl md5h (postKey inst nid)
      (sanitizeId (postKey inst nid)) (note.files.getD [])
      { db with posts := db.posts ++ [mkPostRow now inst nid note] }
    have : (insertMediaRows dl md5h (postKey inst nid) (sanitizeId (postKey inst nid))
        (note.files.getD [])
        { db with posts := db.posts ++ [mkPostRow now inst nid note] }).posts.countP
          (fun p => p.id = postKey inst nid)
        = (db.posts ++ [mkPostRow now inst nid note]).countP (fun p => p.id = postKey inst nid) := by
      rw [hposts]
    rw [this, List.countP_append]
    have hz : db.posts.countP (fun p => p.id = postKey inst nid) = 0 := by
      rw [List.countP_eq_zero]
      rw [List.any_eq_false] at habs
      intro x hx
      exact habs x hx
    simp [hz, mkPostRow, List.countP_cons]
  refine ⟨hexist, by rw [hins], ?_, hcount, ?_⟩
  · apply hexist
    have hpos : 0 < (storeNote dl md5h snap now db inst note).2.posts.countP
        (fun p => p.id = postKey inst nid) := by
      rw [hcount]; exact Nat.one_pos
    rw [List.countP_pos] at hpos
    obtain ⟨r, hr, hrk⟩ := hpos
    rw [List.any_eq_true]
    exact ⟨r, hr, hrk⟩
  · rw [hins]
    dsimp only
    rw [applySnapDB_media]
    apply insertMediaRows_nodup
    exact hmed

/-- Witness for `store_note_idempotent` at a concrete database and note. -/
theorem store_note_idempotent_witness :
    (storeNote (fun _ _ _ => none) (fun _ => "d41d8cd98f") (fun _ => none) "T0"
      ⟨[], []⟩ "https://h.tld"
      { id := some "n1", user := none, text := some "hi", cw := none,
        createdAt := some "2024", repliesCount := 0, renoteCount := 0,
        reactions := none, visibility := none,
        files := some [⟨some "f1", "https://h.tld/f1", none, "image/png", none, none, false, ""⟩] }).1
      = some "h.tld/n1"
    ∧ storeNote (fun _ _ _ => none) (fun _ => "d41d8cd98f") (fun _ => none) "T0"
        (storeNote (fun _ _ _ => none) (fun _ => "d41d8cd98f") (fun _ => none) "T0"
          ⟨[], []⟩ "https://h.tld"
          { id := some "n1", user := none, text := some "hi", cw := none,
            createdAt := some "2024", repliesCount := 0, renoteCount := 0,
            reactions := none, visibility := none,
            files := some [⟨some "f1", "https://h.tld/f1", none, "image/png", none, none, false, ""⟩] }).2
        "https://h.tld"
        { id := some "n1", user := none, text := some "hi", cw := none,
          createdAt := some "2024", repliesCount := 0, renoteCount := 0,
          reactions := none, visibility := none,
          files := some [⟨some "f1", "https://h.tld/f1", none, "image/png", none, none, false, ""⟩] }
      = (none, (storeNote (fun _ _ _ => none) (fun _ => "d41d8cd98f") (fun _ => none) "T0"
          ⟨[], []⟩ "https://h.tld"
          { id := some "n1", user := none, text := some "hi", cw := none,
            createdAt := some "2024", repliesCount := 0, renoteCount := 0,
            reactions := none, visibility := none,
            files := some [⟨some "f1", "https://h.tld/f1", none, "image/png", none, none, false, ""⟩] }).2) := by
  have h := store_note_idempotent (fun _ _ _ => none) (fun _ => "d41d8cd98f") (fun _ => none) "T0"
    ⟨[], []⟩ "https://h.tld"
    { id := some "n1", user := none, text := some "hi", cw := none,
      createdAt := some "2024", repliesCount := 0, renoteCount := 0,
      reactions := none, visibility := none,
      files := some [⟨some "f1", "https://h.tld/f1", none, "image/png", none, none, false, ""⟩] }
    { id := some "n1", user := none, text := some "hi", cw := none,
      createdAt := some "2024", repliesCount := 0, renoteCount := 0,
      reactions := none, visibility := none,
      files := some [⟨some "f1", "https://h.tld/f1", none, "image/png", none, none, false, ""⟩] }
    "n1" rfl (by decide) (by decide) (by decide) rfl
  exact ⟨by rw [h.2.1]; rfl, h.2.2.1⟩

/-- C6: the stored `reaction_count` is the sum of the values of the note's
`reactions` mapping when that key holds a dict, and 0 when the key is
absent or holds a non-dict value (`isinstance(reactions, dict)` guard);
`store_note` never crashes on such malformed reaction data — it is a total
function that still inserts the row. -/
theorem store_note_reaction_count
    (dl : String → String → String → Option String) (md5h : String → String)
    (snap : String → Option String) (now : String) (db : DB) (inst : String)
    (note : Note) (nid : String)
    (hid : note.id = some nid) (hne : nid ≠ "")
    (habs : db.posts.any (fun p => p.id = postKey inst nid) = false) :
    (note.reactions = none →
      ((getPost (storeNote dl md5h snap now db inst note).2 (postKey inst nid)).map
        PostRow.reaction_count) = some 0)
    ∧ (note.reactions = some .rnondict →
      ((getPost (storeNote dl md5h snap now db inst note).2 (postKey inst nid)).map
        PostRow.reaction_count) = some 0)
    ∧ (∀ entries, note.reactions = some (.rdict entries) →
      ((getPost (storeNote dl md5h snap now db inst note).2 (postKey inst nid)).map
        PostRow.reaction_count) = some ((entries.map Prod.snd).sum)) := by
  have hproj := getPost_storeNote_proj PostRow.reaction_count (fun r p => rfl)
    dl md5h snap now db inst note nid hid hne habs
  refine ⟨?_, ?_, ?_⟩
  · intro hr
    rw [hproj]
    simp [mkPostRow, hr]
  · intro hr
    rw [hproj]
    simp [mkPostRow, hr]
  · intro entries hr
    rw [hproj]
    simp [mkPostRow, hr]

/-- Witness for `store_note_reaction_count`: a note with a well-formed
tally, one with a wrong-typed `reactions` value, and one without the key. -/
theorem store_note_reaction_count_witness :
    ((getPost (storeNote (fun _ _ _ => none) (fun _ => "h") (fun _ => none) "T0"
        ⟨[], []⟩ "https://h.tld"
        { id := some "n1", user := none, text := none, cw := none, createdAt := none,
          repliesCount := 0, renoteCount := 0,
          reactions := some (.rdict [("a", 4), ("b", 5)]), visibility := none,
          files := none }).2 "h.tld/n1").map PostRow.reaction_count) = some 9
    ∧ ((getPost (storeNote (fun _ _ _ => none) (fun _ => "h") (fun _ => none) "T0"
        ⟨[], []⟩ "https://h.tld"
        { id := some "n2", user := none, text := none, cw := none, createdAt := none,
          repliesCount := 0, renoteCount := 0,
          reactions := some .rnondict, visibility := none,
          files := none }).2 "h.tld/n2").map PostRow.reaction_count) = some 0
    ∧ ((getPost (storeNote (fun _ _ _ => none) (fun _ => "h") (fun _ => none) "T0"
        ⟨[], []⟩ "https://h.tld"
        { id := some "n3", user := none, text := none, cw := none, createdAt := none,
          repliesCount := 0, renoteCount := 0,
          reactions := none, visibility := none,
          files := none }).2 "h.tld/n3").map PostRow.reaction_count) = some 0 := by
  refine ⟨?_, ?_, ?_⟩
  · have h := (store_note_reaction_count (fun _ _ _ => none) (fun _ => "h") (fun _ => none) "T0"
      ⟨[], []⟩ "https://h.tld"
      { id := some "n1", user := none, text := none, cw := none, createdAt := none,
        repliesCount := 0, renoteCount := 0,
        reactions := some (.rdict [("a", 4), ("b", 5)]), visibility := none,
        files := none } "n1" rfl (by decide) (by decide)).2.2 [("a", 4), ("b", 5)] rfl
    simpa using h
  · exact (store_note_reaction_count (fun _ _ _ => none) (fun _ => "h") (fun _ => none) "T0"
      ⟨[], []⟩ "https://h.tld"
      { id := some "n2", user := none, text := none, cw := none, createdAt := none,
        repliesCount := 0, renoteCount := 0,
        reactions := some .rnondict, visibility := none,
        files := none } "n2" rfl (by decide) (by decide)).2.1 rfl
  · exact (store_note_reaction_count (fun _ _ _ => none) (fun _ => "h") (fun _ => none) "T0"
      ⟨[], []⟩ "https://h.tld"
      { id := some "n3", user := none, text := none, cw := none, createdAt := none,
        repliesCount := 0, renoteCount := 0,
        reactions := none, visibility := none,
        files := none } "n3" rfl (by decide) (by decide)).1 rfl

/-- C9: when the note object has no `id` key (or a falsy empty id),
`store_note` returns `None` without touching the database, and
`archive_single` consequently reports `"already_archived"` with the post id
synthesized from the instance host and its own `note_id` argument — even
though nothing was stored. -/
theorem store_note_missing_id
    (dl : String → String → String → Option String) (md5h : String → String)
    (snap : String → Option String) (now : String) (db : DB) (inst : String)
    (note_id : String) (note : Note)
    (hid : note.id = none ∨ note.id = some "") :
    storeNote dl md5h snap now db inst note = (none, db)
    ∧ archiveSingle dl md5h snap now db inst note_id note
        = (⟨"already_archived", netlocOf inst ++ "/" ++ note_id, none⟩, db) := by
  have hstore : storeNote dl md5h snap now db inst note = (none, db) := by
    rcases hid with h | h <;> simp [storeNote, h]
  exact ⟨hstore, by simp [archiveSingle, hstore]⟩

/-- Witness for `store_note_missing_id`: a concrete id-less note. -/
theorem store_note_missing_id_witness :
    archiveSingle (fun _ _ _ => none) (fun _ => "h") (fun _ => none) "T0"
      ⟨[], []⟩ "https://h.tld" "n9"
      { id := none, user := none, text := none, cw := none, createdAt := none,
        repliesCount := 0, renoteCount := 0, reactions := none, visibility := none,
        files := none }
      = (⟨"already_archived", "h.tld/n9", none⟩, ⟨[], []⟩) := by
  have h := (store_note_missing_id (fun _ _ _ => none) (fun _ => "h") (fun _ => none) "T0"
    ⟨[], []⟩ "https://h.tld" "n9"
    { id := none, user := none, text := none, cw := none, createdAt := none,
      repliesCount := 0, renoteCount := 0, reactions := none, visibility := none,
      files := none } (Or.inl rfl)).2
  simpa using h

/-- C7: a failed media download (network error or timeout, modelled by the
network oracle returning `none`) is non-fatal: `download_media` returns
`None` instead of raising, and `store_note` still inserts the owning posts
row with its metadata and a media row whose `local_path` is NULL — the post
is not rolled back. -/
theorem media_download_failure_nonfatal
    (net : String → Option (Option String)) (ge : String → Option String)
    (md5h : String → String) (snap : String → Option String) (now : String)
    (db : DB) (inst : String) (note : Note) (nid : String) (f : NoteFile)
    (hid : note.id = some nid) (hne : nid ≠ "")
    (hfiles : note.files = some [f]) (hurl : f.url ≠ "")
    (hnet : net f.url = none)
    (habs : db.posts.any (fun p => p.id = postKey inst nid) = false)
    (hmabs : db.media.any (fun m =>
      m.id = postKey inst nid ++ "/" ++ orElseStr f.id (takeStr (md5h f.url) 10)) = false) :
    downloadMedia net ge f.url (sanitizeId (postKey inst nid))
        (orElseStr f.id (takeStr (md5h f.url) 10)) = none
    ∧ (storeNote (downloadMedia net ge) md5h snap now db inst note).1
        = some (postKey inst nid)
    ∧ ((getPost (storeNote (downloadMedia net ge) md5h snap now db inst note).2
        (postKey inst nid)).map PostRow.note_id) = some nid
    ∧ ((getPost (storeNote (downloadMedia net ge) md5h snap now db inst note).2
        (postKey inst nid)).map PostRow.content) = some (orElseStr note.text "")
    ∧ ((getPost (storeNote (downloadMedia net ge) md5h snap now db inst note).2
        (postKey inst nid)).map PostRow.cw) = some note.cw
    ∧ ((getPost (storeNote (downloadMedia net ge) md5h snap now db inst note).2
        (postKey inst nid)).map PostRow.created_at) = some (note.createdAt.getD "")
    ∧ ((getPost (storeNote (downloadMedia net ge) md5h snap now db inst note).2
        (postKey inst nid)).map PostRow.url)
        = some (rstripSlashes inst ++ "/notes/" ++ nid)
    ∧ ((getMedia (storeNote (downloadMedia net ge) md5h snap now db inst note).2
        (postKey inst nid ++ "/" ++ orElseStr f.id (takeStr (md5h f.url) 10))).map
          MediaRow.local_path) = some none
    ∧ ((getMedia (storeNote (downloadMedia net ge) md5h snap now db inst note).2
        (postKey inst nid ++ "/" ++ orElseStr f.id (takeStr (md5h f.url) 10))).map
          MediaRow.url) = some f.url := by
  have hdl : downloadMedia net ge f.url (sanitizeId (postKey inst nid))
      (orElseStr f.id (takeStr (md5h f.url) 10)) = none := by
    unfold downloadMedia
    rw [hnet]
  have hmedia : (storeNote (downloadMedia net ge) md5h snap now db inst note).2.media
      = db.media ++
        [{ id := postKey inst nid ++ "/" ++ orElseStr f.id (takeStr (md5h f.url) 10)
           post_id := postKey inst nid
           filename := f.fname.getD (orElseStr f.id (takeStr (md5h f.url) 10))
           url := f.url
           mime_type := f.ftype
           local_path := none
           width := f.width
           height := f.height
           is_sensitive := if f.isSensitive then 1 else 0
           alt_text := f.comment }] := by
    rw [storeNote_insert (downloadMedia net ge) md5h snap now db inst note nid hid hne habs]
    dsimp only
    rw [applySnapDB_media, hfiles]
    show (insertMediaRows (downloadMedia net ge) md5h (postKey inst nid)
      (sanitizeId (postKey inst nid)) [f] _).media = _
    rw [insertMediaRows, insertMediaRows]
    simp only [hmabs]
    rw [if_neg (by simp [hmabs])]
    simp [hurl, hdl]
  have hfind : ∀ x ∈ db.media, (decide (x.id = postKey inst nid ++ "/" ++
      orElseStr f.id (takeStr (md5h f.url) 10))) = false := by
    rw [List.any_eq_false] at hmabs
    intro x hx
    simpa using hmabs x hx
  have hgm : ∀ {β} (G : MediaRow → β),
      ((getMedia (storeNote (downloadMedia net ge) md5h snap now db inst note).2
        (postKey inst nid ++ "/" ++ orElseStr f.id (takeStr (md5h f.url) 10))).map G)
      = some (G { id := postKey inst nid ++ "/" ++ orElseStr f.id (takeStr (md5h f.url) 10),
                  post_id := postKey inst nid,
                  filename := f.fname.getD (orElseStr f.id (takeStr (md5h f.url) 10)),
                  url := f.url,
                  mime_type := f.ftype,
                  local_path := none,
                  width := f.width,
                  height := f.height,
                  is_sensitive := if f.isSensitive then 1 else 0,
                  alt_text := f.comment }) := by
    intro β G
    unfold getMedia
    rw [hmedia, find?_append_right _ _ _ hfind]
    simp [List.find?_cons]
  refine ⟨hdl, ?_, ?_, ?_, ?_, ?_, ?_, ?_, ?_⟩
  · rw [storeNote_insert (downloadMedia net ge) md5h snap now db inst note nid hid hne habs]
  · rw [getPost_storeNote_proj PostRow.note_id (fun r p => rfl)
      (downloadMedia net ge) md5h snap now db inst note nid hid hne habs]
    simp [mkPostRow]
  · rw [getPost_storeNote_proj PostRow.content (fun r p => rfl)
      (downloadMedia net ge) md5h snap now db inst note nid hid hne habs]
    simp [mkPostRow]
  · rw [getPost_storeNote_proj PostRow.cw (fun r p => rfl)
      (downloadMedia net ge) md5h snap now db inst note nid hid hne habs]
    simp [mkPostRow]
  · rw [getPost_storeNote_proj PostRow.created_at (fun r p => rfl)
      (downloadMedia net ge) md5h snap now db inst note nid hid hne habs]
    simp [mkPostRow]
  · rw [getPost_storeNote_proj PostRow.url (fun r p => rfl)
      (downloadMedia net ge) md5h snap now db inst note nid hid hne habs]
    simp [mkPostRow]
  · exact hgm MediaRow.local_path
  · exact hgm MediaRow.url

/-- Witness for `media_download_failure_nonfatal` at a concrete note whose
single attachment download times out. -/
theorem media_download_failure_nonfatal_witness :
    ((getMedia (storeNote (downloadMedia (fun _ => none) (fun _ => none))
        (fun _ => "0123456789abcdef") (fun _ => none) "T0"
        ⟨[], []⟩ "https://h.tld"
        { id := some "n1", user := none, text := some "post with media", cw := none,
          createdAt := some "2024", repliesCount := 0, renoteCount := 0,
          reactions := none, visibility := none,
          files := some [⟨some "f1", "https://h.tld/f1.png", none, "image/png",
            none, none, false, ""⟩] }).2 "h.tld/n1/f1").map MediaRow.local_path)
      = some none
    ∧ ((getPost (storeNote (downloadMedia (fun _ => none) (fun _ => none))
        (fun _ => "0123456789abcdef") (fun _ => none) "T0"
        ⟨[], []⟩ "https://h.tld"
        { id := some "n1", user := none, text := some "post with media", cw := none,
          createdAt := some "2024", repliesCount := 0, renoteCount := 0,
          reactions := none, visibility := none,
          files := some [⟨some "f1", "https://h.tld/f1.png", none, "image/png",
            none, none, false, ""⟩] }).2 "h.tld/n1").map PostRow.content)
      = some "post with media" := by
  have h := media_download_failure_nonfatal (fun _ => none) (fun _ => none)
    (fun _ => "0123456789abcdef") (fun _ => none) "T0" ⟨[], []⟩ "https://h.tld"
    { id := some "n1", user := none, text := some "post with media", cw := none,
      createdAt := some "2024", repliesCount := 0, renoteCount := 0,
      reactions := none, visibility := none,
      files := some [⟨some "f1", "https://h.tld/f1.png", none, "image/png",
        none, none, false, ""⟩] }
    "n1" ⟨some "f1", "https://h.tld/f1.png", none, "image/png", none, none, false, ""⟩
    rfl (by decide) rfl (by decide) rfl (by decide) (by decide)
  exact ⟨h.2.2.2.2.2.2.2.1, h.2.2.2.1⟩

/-- The process-wide `_render_cache` dict (token → HTML), modelled as an
association list with unique keys. -/
def RenderCache := List (String × String)

/-- Python dict assignment `_render_cache[token] = html`: replace the entry
if the key exists, else append it. -/
def cachePut (cache : List (String × String)) (token html : String) : List (String × String) :=
  if cache.any (fun e => e.1 = token) then
    cache.map (fun e => if e.1 = token then (token, html) else e)
  else cache ++ [(token, html)]

/-- Python `_render_cache.pop(token, None)`: remove the entry for the key. -/
def cachePop (cache : List (String × String)) (token : String) : List (String × String) :=
  cache.filter (fun e => ¬ e.1 = token)

/-- Outcome of the Playwright block inside `take_screenshot`: either the
navigation/capture succeeds, or some exception occurs (navigation timeout,
browser crash, capture failure) — swallowed by the `except` clause.  The
inner network-idle wait already swallows its own timeout, so it does not
produce a distinct outcome. -/
inductive RenderOutcome where
  | success
  | failure
deriving DecidableEq

/-- Result of `take_screenshot`: the optional screenshot path and the
state of the `_render_cache` registry after the call. -/
structure ShotResult where
  path : Option String
  cache : List (String × String)
deriving DecidableEq

/-- Model of `take_screenshot(post_id, html_content)` (src/app.py lines
216-267).  `avail` is whether Playwright imports (checked before any cache
write); `md5hex` is the `hashlib.md5` oracle (the token is the first 16 hex
chars of the post id's digest); `outcome` is the render oracle.  The
`finally: _render_cache.pop(token, None)` runs on both outcomes. -/
def takeScreenshot (avail : Bool) (md5hex : String → String) (outcome : RenderOutcome)
    (cache : List (String × String)) (post_id html_content : String) : ShotResult :=
  if !avail then ⟨none, cache⟩    -- ImportError: return None before any registration
  else
    let folder := sanitizeId post_id
    let dest := mediaDirS ++ "/" ++ folder ++ "/screenshot.png"
    let token := takeStr (md5hex post_id) 16
    let cache1 := cachePut cache token html_content
    match outcome with
    | .success => ⟨some dest, cachePop cache1 token⟩
    | .failure => ⟨none, cachePop cache1 token⟩

/-- C8: after every invocation of `take_screenshot` — success, renderer
unavailable, or an exception during navigation/capture — the render token
derived from the post id is absent from the token→HTML registry.  The
hypothesis that the token is not already present before the call is the
spec's own single-writer discipline (only the job that registered a token
owns it); when Playwright is available the conclusion holds even without
it, since the `finally` clause pops unconditionally. -/
theorem take_screenshot_no_token_leak (avail : Bool) (md5hex : String → String)
    (outcome : RenderOutcome) (cache : List (String × String)) (post_id html : String)
    (hclean : cache.all (fun e => ¬ e.1 = takeStr (md5hex post_id) 16) = true) :
    (takeScreenshot avail md5hex outcome cache post_id html).cache.all
      (fun e => ¬ e.1 = takeStr (md5hex post_id) 16) = true := by
  unfold takeScreenshot
  cases avail with
  | false => simpa using hclean
  | true =>
    have hpop : ∀ c : List (String × String),
        (cachePop c (takeStr (md5hex post_id) 16)).all
          (fun e => ¬ e.1 = takeStr (md5hex post_id) 16) = true := by
      intro c
      rw [List.all_eq_true]
      intro e he
      have := List.of_mem_filter he
      simpa using this
    cases outcome <;> exact hpop _

/-- Witness for `take_screenshot_no_token_leak`: a failing render attempt
with another job's token already registered. -/
theorem take_screenshot_no_token_leak_witness :
    (takeScreenshot true (fun s => s ++ s ++ s ++ s ++ s ++ s ++ s ++ s) .failure
      [("othertoken", "<html>")] "p1" "<div>post</div>").cache.all
      (fun e => ¬ e.1 = takeStr (((fun s => s ++ s ++ s ++ s ++ s ++ s ++ s ++ s) "p1")) 16) = true := by
  exact take_screenshot_no_token_leak true (fun s => s ++ s ++ s ++ s ++ s ++ s ++ s ++ s)
    .failure [("othertoken", "<html>")] "p1" "<div>post</div>" (by decide)

/-- Modelled from the spec: the remote `users/notes` endpoint (an external
collaborator, spec §6 and glossary): given the user's full history of
matching notes (newest first), a request with cursor `untilId` returns the
notes strictly older than the note with that id (all of them when no
cursor is given). -/
def afterCursor (hist : List Note) : Option String → List Note
  | none => hist
  | some i => (hist.dropWhile (fun n => ¬ n.id = some i)).tail

/-- Model of `fetch_user_notes(instance, user_id, limit, until_id)`
(src/app.py lines 178-190) composed with the spec-modelled server: the
payload caps the page at `min(limit, 20)` notes. -/
def fetchUserNotes (hist : List Note) (limit : Nat) (untilId : Option String) : List Note :=
  (afterCursor hist untilId).take (min limit 20)

/-- Observable outcome of `archive_user`: the final tallies, the `untilId`
cursor used by each page fetch (in order; `none` for the first), the
arguments of each `progress_cb(archived + skipped, fetched)` invocation
(in order), and the final database. -/
structure UserRunResult where
  archived : Nat
  skipped : Nat
  total : Nat
  fetchCursors : List (Option String)
  progressCalls : List (Nat × Nat)
  db : DB

/-- The `for note in batch` loop of `archive_user`: upsert each note,
tallying archived vs. skipped. -/
def storeBatch (dl : String → String → String → Option String)
    (md5h : String → String) (snap : String → Option String) (now : String)
    (inst : String) : List Note → Nat → Nat → DB → Nat × Nat × DB
  | [], a, s, db => (a, s, db)
  | n :: rest, a, s, db =>
    match storeNote dl md5h snap now db inst n with
    | (some _, db') => storeBatch dl md5h snap now inst rest (a + 1) s db'
    | (none, db') => storeBatch dl md5h snap now inst rest a (s + 1) db'

/-- The `while fetched < max_posts` loop of `archive_user` (src/app.py
lines 376-409).  Each iteration fetches a page of at most
`min(PAGE_SIZE, max_posts - fetched)` notes (PAGE_SIZE = 20) after the
cursor, breaks on an empty page, stores the batch, advances
`fetched` and the cursor (`until_id = batch[-1]["id"]`, these notes carry
ids), fires the progress callback, and breaks when the page was short.
Termination: each continuing iteration strictly increases `fetched`. -/
def archiveUserLoop (dl : String → String → String → Option String)
    (md5h : String → String) (snap : String → Option String) (now : String)
    (inst : String) (hist : List Note) (maxPosts : Nat)
    (a s f : Nat) (u : Option String) (db : DB) : UserRunResult :=
  if hf : f < maxPosts then
    let batch := fetchUserNotes hist (min 20 (maxPosts - f)) u
    if hempty : batch.isEmpty then ⟨a, s, f, [u], [], db⟩
    else
      let t := storeBatch dl md5h snap now inst batch a s db
      let f' := f + batch.length
      let u' := batch.getLast?.bind Note.id
      if hlen : batch.length < 20 then
        ⟨t.1, t.2.1, f', [u], [(t.1 + t.2.1, f')], t.2.2⟩
      else
        let r := archiveUserLoop dl md5h snap now inst hist maxPosts t.1 t.2.1 f' u' t.2.2
        ⟨r.archived, r.skipped, r.total, u :: r.fetchCursors,
         (t.1 + t.2.1, f') :: r.progressCalls, r.db⟩
  else ⟨a, s, f, [], [], db⟩
termination_by maxPosts - f
decreasing_by
  have hl : 20 ≤ (fetchUserNotes hist (min 20 (maxPosts - f)) u).length :=
    Nat.le_of_not_lt hlen
  omega

/-- Model of `archive_user(instance, username, max_posts, progress_cb)`
(src/app.py lines 362-418) after the user lookup: run the pagination loop
from zero tallies and no cursor.  `total` is the returned `"total"` value
(`fetched`). -/
def archiveUser (dl : String → String → String → Option String)
    (md5h : String → String) (snap : String → Option String) (now : String)
    (inst : String) (hist : List Note) (maxPosts : Nat) (db0 : DB) : UserRunResult :=
  archiveUserLoop dl md5h snap now inst hist maxPosts 0 0 0 none db0

/-- Checks a progress-call trace: every call has equal arguments
(`done = total`), and the totals never decrease from one call to the next
(starting from `prev`). -/
def progressFromOk (prev : Nat) : List (Nat × Nat) → Bool
  | [] => true
  | (d, t) :: rest => d == t && decide (prev ≤ t) && progressFromOk t rest

/-- `progressFromOk` from zero: the whole-trace property. -/
def progressOk (l : List (Nat × Nat)) : Bool := progressFromOk 0 l

lemma storeBatch_sum (dl : String → String → String → Option String)
    (md5h : String → String) (snap : String → Option String) (now : String)
    (inst : String) : ∀ (batch : List Note) (a s : Nat) (db : DB),
    (storeBatch dl md5h snap now inst batch a s db).1
      + (storeBatch dl md5h snap now inst batch a s db).2.1 = a + s + batch.length := by
  intro batch
  induction batch with
  | nil => intro a s db; simp [storeBatch]
  | cons n rest ih =>
    intro a s db
    rw [storeBatch]
    cases hsn : storeNote dl md5h snap now db inst n with
    | mk r db' =>
      cases r with
      | none =>
        have := ih a (s + 1) db'
        simpa using by omega
      | some pid =>
        have := ih (a + 1) s db'
        simpa using by omega

lemma archiveUserLoop_progress (dl : String → String → String → Option String)
    (md5h : String → String) (snap : String → Option String) (now : String)
    (inst : String) (hist : List Note) (maxPosts : Nat) :
    ∀ (k a s f : Nat) (u : Option String) (db : DB),
      maxPosts - f ≤ k → a + s = f →
      progressFromOk f
        (archiveUserLoop dl md5h snap now inst hist maxPosts a s f u db).progressCalls
        = true := by
  intro k
  induction k with
  | zero =>
    intro a s f u db hk hinv
    rw [archiveUserLoop]
    rw [dif_neg (by omega)]
    rfl
  | succ k ih =>
    intro a s f u db hk hinv
    rw [archiveUserLoop]
    by_cases hf : f < maxPosts
    · rw [dif_pos hf]
      dsimp only
      by_cases hempty : (fetchUserNotes hist (min 20 (maxPosts - f)) u).isEmpty
      · rw [dif_pos hempty]
        rfl
      · rw [dif_neg hempty]
        have hsum := storeBatch_sum dl md5h snap now inst
          (fetchUserNotes hist (min 20 (maxPosts - f)) u) a s db
        by_cases hlen : (fetchUserNotes hist (min 20 (maxPosts - f)) u).length < 20
        · rw [dif_pos hlen]
          simp only [progressFromOk, Bool.and_eq_true, beq_iff_eq, decide_eq_true_eq]
          exact ⟨⟨by omega, by omega⟩, trivial⟩
        · rw [dif_neg hlen]
          simp only [progressFromOk, Bool.and_eq_true, beq_iff_eq, decide_eq_true_eq]
          refine ⟨⟨by omega, by omega⟩, ?_⟩
          exact ih _ _ _ _ _ (by omega) (by omega)
    · rw [dif_neg hf]
      rfl

/-- C10: in every run of `archive_user`, each `progress_cb(done, total)`
invocation satisfies `done = total` — the first argument
(`archived + skipped`) always equals the second (`fetched`), since every
note of each fetched page is tallied exactly once before the callback
fires — and both arguments are monotonically non-decreasing across
invocations. -/
theorem archive_user_progress_calls (dl : String → String → String → Option String)
    (md5h : String → String) (snap : String → Option String) (now : String)
    (inst : String) (hist : List Note) (maxPosts : Nat) (db0 : DB) :
    progressOk ((archiveUser dl md5h snap now inst hist maxPosts db0).progressCalls)
      = true := by
  have h := archiveUserLoop_progress dl md5h snap now inst hist maxPosts
    maxPosts 0 0 0 none db0 (by omega) rfl
  exact h

lemma dropWhile_id (i : String) : ∀ (l₁ : List Note) (x : Note) (l₂ : List Note),
    x.id = some i → (∀ y ∈ l₁, ¬ y.id = some i) →
    ((l₁ ++ x :: l₂).dropWhile (fun n => ¬ n.id = some i)) = x :: l₂ := by
  intro l₁
  induction l₁ with
  | nil =>
    intro x l₂ hx _
    simp [List.dropWhile_cons, hx]
  | cons y t ih =>
    intro x l₂ hx hnot
    have hy : ¬ y.id = some i := hnot y (List.mem_cons_self ..)
    simp only [List.cons_append, List.dropWhile_cons]
    rw [if_pos (by simpa using hy)]
    exact ih x l₂ hx (fun z hz => hnot z (List.mem_cons_of_mem _ hz))

/-- The spec-modelled server positioned at a cursor: if the history splits
as `l₁ ++ x :: l₂` with the cursor naming `x` and no earlier note carrying
it, the page after the cursor starts at `l₂`. -/
lemma afterCursor_append (i : String) (l₁ : List Note) (x : Note) (l₂ : List Note)
    (hx : x.id = some i) (hnot : ∀ y ∈ l₁, ¬ y.id = some i) :
    afterCursor (l₁ ++ x :: l₂) (some i) = l₂ := by
  show ((l₁ ++ x :: l₂).dropWhile (fun n => ¬ n.id = some i)).tail = l₂
  rw [dropWhile_id i l₁ x l₂ hx hnot]
  rfl

lemma nodup_middle_not_mem {α} (l₁ : List α) (x : α) (l₂ : List α)
    (h : (l₁ ++ x :: l₂).Nodup) : x ∉ l₁ := by
  intro hx
  exact (List.nodup_append.mp h).2.2 hx (List.mem_cons_self ..)

/-- C3: archiving a user whose history holds exactly 45 matching notes
(all carrying distinct ids) with `max_posts = 45` performs exactly 3 page
fetches; the first fetch carries no `untilId`, and each later fetch's
`untilId` equals the id of the last note returned by the previous fetch;
the returned total is 45. -/
theorem archive_user_pagination (dl : String → String → String → Option String)
    (md5h : String → String) (snap : String → Option String) (now : String)
    (inst : String) (hist : List Note) (db0 : DB)
    (hlen : hist.length = 45)
    (hsome : ∀ n ∈ hist, n.id.isSome = true)
    (hnd : (hist.map Note.id).Nodup) :
    (archiveUser dl md5h snap now inst hist 45 db0).total = 45
    ∧ (archiveUser dl md5h snap now inst hist 45 db0).fetchCursors
        = [none,
           (fetchUserNotes hist 20 none).getLast?.bind Note.id,
           (fetchUserNotes hist 20
             ((fetchUserNotes hist 20 none).getLast?.bind Note.id)).getLast?.bind Note.id] := by
  -- page 1 is the first 20 notes
  have hb1 : ∀ lim, min lim 20 = 20 → fetchUserNotes hist lim none = hist.take 20 := by
    intro lim hl
    show (afterCursor hist none).take (min lim 20) = hist.take 20
    rw [hl]
    rfl
  have hb1a : fetchUserNotes hist (min 20 (45 - 0)) none = hist.take 20 := hb1 _ (by norm_num)
  have hb1b : fetchUserNotes hist 20 none = hist.take 20 := hb1 _ (by norm_num)
  have hb1len : (hist.take 20).length = 20 := by rw [List.length_take]; omega
  have hb1ne : hist.take 20 ≠ [] := by
    intro h
    rw [h] at hb1len
    simp at hb1len
  obtain ⟨i₁, hi₁⟩ := Option.isSome_iff_exists.mp
    (hsome ((hist.take 20).getLast hb1ne) (List.take_subset _ _ (List.getLast_mem hb1ne)))
  have hgl1 : (hist.take 20).getLast? = some ((hist.take 20).getLast hb1ne) :=
    List.getLast?_eq_getLast _ hb1ne
  have hcur1 : (hist.take 20).getLast?.bind Note.id = some i₁ := by
    rw [hgl1]
    simpa using hi₁
  have hdec1 : hist = (hist.take 20).dropLast ++ (hist.take 20).getLast hb1ne :: hist.drop 20 := by
    conv_lhs => rw [← List.take_append_drop 20 hist]
    conv_lhs => rw [← List.dropLast_append_getLast hb1ne]
    rw [List.append_assoc, List.singleton_append]
  have hnot1 : ∀ y ∈ (hist.take 20).dropLast, ¬ y.id = some i₁ := by
    intro y hy hcon
    have hnd' := hnd
    rw [hdec1, List.map_append, List.map_cons] at hnd'
    exact nodup_middle_not_mem _ _ _ hnd'
      (List.mem_map.mpr ⟨y, hy, by rw [hcon, hi₁]⟩)
  have haft1 : afterCursor hist (some i₁) = hist.drop 20 := by
    conv_lhs => rw [hdec1]
    exact afterCursor_append i₁ _ _ _ hi₁ hnot1
  -- page 2 is the next 20 notes
  have hb2 : ∀ lim, min lim 20 = 20 →
      fetchUserNotes hist lim (some i₁) = (hist.drop 20).take 20 := by
    intro lim hl
    show (afterCursor hist (some i₁)).take (min lim 20) = _
    rw [hl, haft1]
  have hb2a : fetchUserNotes hist (min 20 (45 - 20)) (some i₁) = (hist.drop 20).take 20 :=
    hb2 _ (by norm_num)
  have hb2b : fetchUserNotes hist 20 (some i₁) = (hist.drop 20).take 20 := hb2 _ (by norm_num)
  have hd20 : (hist.drop 20).length = 25 := by rw [List.length_drop]; omega
  have hb2len : ((hist.drop 20).take 20).length = 20 := by rw [List.length_take]; omega
  have hb2ne : (hist.drop 20).take 20 ≠ [] := by
    intro h
    rw [h] at hb2len
    simp at hb2len
  obtain ⟨i₂, hi₂⟩ := Option.isSome_iff_exists.mp
    (hsome (((hist.drop 20).take 20).getLast hb2ne)
      (List.drop_subset _ _ (List.take_subset _ _ (List.getLast_mem hb2ne))))
  have hgl2 : ((hist.drop 20).take 20).getLast?
      = some (((hist.drop 20).take 20).getLast hb2ne) :=
    List.getLast?_eq_getLast _ hb2ne
  have hcur2 : ((hist.drop 20).take 20).getLast?.bind Note.id = some i₂ := by
    rw [hgl2]
    simpa using hi₂
  have hsplit2 : hist.drop 20 = (hist.drop 20).take 20 ++ hist.drop 40 := by
    conv_lhs => rw [← List.take_append_drop 20 (hist.drop 20)]
    rw [List.drop_drop]
  have hdec2 : hist = (hist.take 20 ++ ((hist.drop 20).take 20).dropLast)
      ++ ((hist.drop 20).take 20).getLast hb2ne :: hist.drop 40 := by
    conv_lhs => rw [← List.take_append_drop 20 hist]
    conv_lhs => rw [hsplit2]
    conv_lhs => rw [← List.dropLast_append_getLast hb2ne]
    simp [List.append_assoc]
  have hnot2 : ∀ y ∈ hist.take 20 ++ ((hist.drop 20).take 20).dropLast,
      ¬ y.id = some i₂ := by
    intro y hy hcon
    have hnd' := hnd
    rw [hdec2, List.map_append, List.map_cons] at hnd'
    exact nodup_middle_not_mem _ _ _ hnd'
      (List.mem_map.mpr ⟨y, hy, by rw [hcon, hi₂]⟩)
  have haft2 : afterCursor hist (some i₂) = hist.drop 40 := by
    conv_lhs => rw [hdec2]
    exact afterCursor_append i₂ _ _ _ hi₂ hnot2
  -- page 3 is the remaining 5 notes
  have hd40 : (hist.drop 40).length = 5 := by rw [List.length_drop]; omega
  have hb3a : fetchUserNotes hist (min 20 (45 - 40)) (some i₂) = hist.drop 40 := by
    show (afterCursor hist (some i₂)).take (min (min 20 (45 - 40)) 20) = _
    rw [haft2, show min (min 20 (45 - 40)) 20 = 5 from by norm_num]
    exact List.take_of_length_le (by omega)
  -- evaluate the loop, innermost page first
  have step3 : ∀ (a s : Nat) (db : DB),
      (archiveUserLoop dl md5h snap now inst hist 45 a s 40 (some i₂) db).total = 45
      ∧ (archiveUserLoop dl md5h snap now inst hist 45 a s 40 (some i₂) db).fetchCursors
          = [some i₂] := by
    intro a s db
    rw [archiveUserLoop]
    rw [dif_pos (by norm_num : (40 : Nat) < 45)]
    dsimp only
    rw [hb3a]
    have hne3 : ¬ ((hist.drop 40).isEmpty = true) := by
      rw [List.isEmpty_iff]
      intro h
      rw [h] at hd40
      simp at hd40
    rw [dif_neg hne3]
    rw [dif_pos (show (hist.drop 40).length < 20 by omega)]
    constructor
    · show 40 + (hist.drop 40).length = 45
      omega
    · rfl
  have step2 : ∀ (a s : Nat) (db : DB),
      (archiveUserLoop dl md5h snap now inst hist 45 a s 20 (some i₁) db).total = 45
      ∧ (archiveUserLoop dl md5h snap now inst hist 45 a s 20 (some i₁) db).fetchCursors
          = [some i₁, some i₂] := by
    intro a s db
    rw [archiveUserLoop]
    rw [dif_pos (by norm_num : (20 : Nat) < 45)]
    dsimp only
    rw [hb2a]
    have hne2 : ¬ (((hist.drop 20).take 20).isEmpty = true) := by
      rw [List.isEmpty_iff]
      intro h
      rw [h] at hb2len
      simp at hb2len
    rw [dif_neg hne2]
    rw [dif_neg (show ¬ ((hist.drop 20).take 20).length < 20 by omega)]
    dsimp only
    rw [hcur2, hb2len]
    constructor
    · exact (step3 _ _ _).1
    · rw [(step3 _ _ _).2]
  have step1 :
      (archiveUserLoop dl md5h snap now inst hist 45 0 0 0 none db0).total = 45
      ∧ (archiveUserLoop dl md5h snap now inst hist 45 0 0 0 none db0).fetchCursors
          = [none, some i₁, some i₂] := by
    rw [archiveUserLoop]
    rw [dif_pos (by norm_num : (0 : Nat) < 45)]
    dsimp only
    rw [hb1a]
    have hne1 : ¬ ((hist.take 20).isEmpty = true) := by
      rw [List.isEmpty_iff]
      intro h
      rw [h] at hb1len
      simp at hb1len
    rw [dif_neg hne1]
    rw [dif_neg (show ¬ (hist.take 20).length < 20 by omega)]
    dsimp only
    rw [hcur1, hb1len]
    constructor
    · exact (step2 _ _ _).1
    · rw [(step2 _ _ _).2]
  refine ⟨step1.1, ?_⟩
  rw [show (archiveUser dl md5h snap now inst hist 45 db0).fetchCursors
      = (archiveUserLoop dl md5h snap now inst hist 45 0 0 0 none db0).fetchCursors from rfl]
  rw [step1.2, hb1b, hcur1, hb2b, hcur2]

/-- Witness for `archive_user_pagination`: a concrete 45-note history. -/
theorem archive_user_pagination_witness :
    (archiveUser (fun _ _ _ => none) (fun _ => "h") (fun _ => none) "T0" "https://h.tld"
      ((List.range 45).map (fun k =>
        { id := some (toString k), user := none, text := none, cw := none,
          createdAt := none, repliesCount := 0, renoteCount := 0, reactions := none,
          visibility := none, files := none : Note }))
      45 ⟨[], []⟩).total = 45 := by
  exact (archive_user_pagination (fun _ _ _ => none) (fun _ => "h") (fun _ => none) "T0"
    "https://h.tld"
    ((List.range 45).map (fun k =>
      { id := some (toString k), user := none, text := none, cw := none,
        createdAt := none, repliesCount := 0, renoteCount := 0, reactions := none,
        visibility := none, files := none : Note }))
    ⟨[], []⟩ (by decide)
    (by decide)
    (by decide)).1

end SharkeyArch
